import Mathlib

set_option maxHeartbeats 1000000

/-!
Shallow embedding of the bingo mini-game server (`src/server.js`).

The server keeps a registry of game sessions.  A session owns a list of
players (each with a 5×5 card and a marked-grid), `started`/`closed`
flags, a `winner` record, the 1..75 number pool, the drawn history, the
current draw, and an auto-draw timer handle (modelled as a `Bool`:
timer present or not).

Randomness (`Math.random`) is modelled by oracle parameters: a draw
takes the random index `k`, card generation takes a stream of raw
random values per column, and winner timestamps are passed in as the
`now` argument.
-/

namespace Bingo

/-- A card cell: either a number or the center FREE sentinel
(`numbers[2][2] = 'FREE'` in the source). -/
inductive Cell where
  | num : Nat → Cell
  | free : Cell
deriving DecidableEq

/-- A player's card (`createCard` result): `numbers` is column-major
(`numbers[col][row]` in the source) and `marked` is row-major
(`marked[row][col]`). -/
structure Card where
  numbers : List (List Cell)
  marked : List (List Bool)
deriving DecidableEq

/-- A joined player (`{id, name, card, disqualified}` in `player:join`). -/
structure Player where
  id : Nat
  name : String
  card : Card
  disqualified : Bool
deriving DecidableEq

/-- The winner record `{id, name, timeISO}` built on a winning mark or claim. -/
structure Winner where
  id : Nat
  name : String
  timeISO : String
deriving DecidableEq

/-- One game session (`newGameState` shape in the source).  `interval`
models whether the auto-draw `setInterval` handle is live. -/
structure Game where
  id : String
  hostSocketId : Nat
  players : List Player
  started : Bool
  closed : Bool
  winner : Option Winner
  numbers : List Nat
  drawn : List Nat
  current : Option Nat
  interval : Bool
deriving DecidableEq

/-- The full 1..75 number pool, `Array.from(\x7blength:75\x7d,(_,i)=>i+1)`. -/
def bingoPool : List Nat := (List.range 75).map (· + 1)

/-- `newGameState(code, hostSocketId)`. -/
def newGameState (code : String) (host : Nat) : Game :=
  { id := code
    hostSocketId := host
    players := []
    started := false
    closed := false
    winner := none
    numbers := bingoPool
    drawn := []
    current := none
    interval := false }

/-- Row-major lookup into a marked-grid: `marked[row][col]`
(an out-of-range JS index reads as undefined, i.e. falsy). -/
def markedAt (m : List (List Bool)) (row col : Nat) : Bool :=
  (m.getD row []).getD col false

/-- Row-major update `marked[row][col] = true`. -/
def setMarked (m : List (List Bool)) (row col : Nat) : List (List Bool) :=
  m.set row ((m.getD row []).set col true)

/-- `hasBingo(marked)`: some row fully true, some column fully true, the
main diagonal `row[idx]`, or the anti-diagonal `row[4-idx]`. -/
def hasBingo (marked : List (List Bool)) : Bool :=
  ((List.range 5).any fun r => (marked.getD r []).all fun b => b) ||
  ((List.range 5).any fun c => marked.all fun row => row.getD c false) ||
  (marked.enum.all fun ri => ri.2.getD ri.1 false) ||
  (marked.enum.all fun ri => ri.2.getD (4 - ri.1) false)

/-- `normalizeCode`: trim and upper-case. -/
def normalizeCode (s : String) : String := s.trim.toUpper

/-- The fixed per-column ranges of `createCard`. -/
def bingoRanges : List (Nat × Nat) := [(1, 15), (16, 30), (31, 45), (46, 60), (61, 75)]

/-- One iteration of the rejection-sampling loop
`while (pool.size < 5) pool.add(Math.floor(Math.random()*(max-min+1))+min)`:
the raw random value `k` is reduced into the column range; a JS `Set`
keeps insertion order and drops duplicates.  Once the pool reached
size 5 the loop has stopped, so further candidates are ignored. -/
def samplePoolStep (mn mx : Nat) (pool : List Nat) (k : Nat) : List Nat :=
  if 5 ≤ pool.length then pool
  else
    let v := k % (mx - mn + 1) + mn
    if v ∈ pool then pool else pool ++ [v]

/-- The sampling loop of `createCard` for one column, fed by the prefix
`ks` of the random stream. -/
def samplePool (ks : List Nat) (mn mx : Nat) : List Nat :=
  ks.foldl (samplePoolStep mn mx) []

/-- `createCard()`: five sampled columns, center overwritten with FREE,
marked-grid all false except the pre-marked center. -/
def createCard (ks : Nat → List Nat) : Card :=
  let columns := bingoRanges.enum.map fun p => (samplePool (ks p.1) p.2.1 p.2.2).map Cell.num
  let columns2 := columns.set 2 ((columns.getD 2 []).set 2 Cell.free)
  let marked0 := List.replicate 5 (List.replicate 5 false)
  let marked2 := marked0.set 2 ((marked0.getD 2 []).set 2 true)
  { numbers := columns2, marked := marked2 }

/-- `drawNumber(game)`: filter the pool against the drawn history; if
nothing remains return null, else pick the remaining number at random
index `k`, append it to `drawn` and set it as `current`. -/
def drawNumber (g : Game) (k : Nat) : Option Nat × Game :=
  let remaining := g.numbers.filter fun n => !g.drawn.contains n
  if remaining.isEmpty then (none, g)
  else
    let n := remaining.getD (k % remaining.length) 0
    (some n, { g with drawn := g.drawn ++ [n], current := some n })

/-- `stopAutoDraw(game)`: clear the timer and set `started = false`. -/
def stopAutoDraw (g : Game) : Game :=
  { g with interval := false, started := false }

/-- `startAutoDraw(game)`: (re)install the repeating draw timer. -/
def startAutoDraw (g : Game) : Game :=
  { g with interval := true }

/-- `closeGame(game, winner)`: set `closed` and `winner`, then stop the
auto-draw. -/
def closeGame (g : Game) (w : Winner) : Game :=
  stopAutoDraw { g with closed := true, winner := some w }

/-- The body of the auto-draw `setInterval` callback: skip when not
running or closed, stop after 75 draws, otherwise draw. -/
def autoDrawTick (g : Game) (k : Nat) : Game :=
  if !g.started || g.closed then g
  else if 75 ≤ g.drawn.length then stopAutoDraw g
  else (drawNumber g k).2

/-- The `setTimeout` callback scheduled by `host:start`: one immediate
draw if the game is still running. -/
def delayedFirstDraw (g : Game) (k : Nat) : Game :=
  if g.started && !g.closed then (drawNumber g k).2 else g

/-- Acknowledgment of `host:start` once the session was found. -/
inductive StartAck where
  | gameEnded
  | noPlayers
  | ok
deriving DecidableEq

/-- `host:start` on a found session. -/
def hostStartG (g : Game) : StartAck × Game :=
  if g.closed then (.gameEnded, g)
  else if g.players.length = 0 then (.noPlayers, g)
  else (.ok, startAutoDraw { g with started := true })

/-- `host:stop` on a found session. -/
def hostStopG (g : Game) : Game := stopAutoDraw g

/-- `host:join` on a found session: re-attach the host socket. -/
def hostJoinG (host : Nat) (g : Game) : Game :=
  { g with hostSocketId := host }

/-- Acknowledgment of `player:join` once the session was found. -/
inductive JoinAck where
  | alreadyEnded
  | nameRequired
  | nameTaken
  | ok
deriving DecidableEq

/-- `player:join` on a found session: closed guard, name trimming and
truncation, case-insensitive duplicate check, then register the player
(the freshly generated card is an oracle argument). -/
def playerJoinG (g : Game) (pid : Nat) (name : String) (card : Card) : JoinAck × Game :=
  if g.closed then (.alreadyEnded, g)
  else
    let cleanName := name.trim.take 20
    if cleanName = "" then (.nameRequired, g)
    else if g.players.any fun p => p.name.toLower = cleanName.toLower then (.nameTaken, g)
    else (.ok, { g with players := g.players ++
      [{ id := pid, name := cleanName, card := card, disqualified := false }] })

/-- Acknowledgment of `player:mark`: silent failure `\x7bok:false\x7d`, the
`Number not drawn` failure, or `\x7bok:true\x7d`. -/
inductive MarkAck where
  | failSilent
  | failNotDrawn
  | ok
deriving DecidableEq

/-- The two-level optional lookup behind `player.card.numbers[col][row]`:
`some` exactly when both indices land inside the card, so
`cardValue card row col = some cell` states that the cell really
exists.  (The two overruns behave differently in the source —
`playerMarkG` below keeps them apart — so this composite is used only
on the `some` side, where it is exact.) -/
def cardValue (card : Card) (row col : Nat) : Option Cell :=
  card.numbers[col]?.bind fun column => column[row]?

/-- `player:mark` on the session under the given code: phase and player
guards, then the unchecked lookup `player.card.numbers[col][row]`.  An
out-of-range `col` makes `numbers[col]` undefined, so the `[row]`
access on it throws — the modelled crash `none` (no mutation precedes
the lookup).  With `col` in range, an out-of-range `row` merely reads
undefined, which is not the FREE sentinel and is never found by
`drawn.includes`, so that path takes the Number-not-drawn reply.  Then:
FREE short-circuit, drawn check, no-op re-mark, fresh mark with win
detection. -/
def playerMarkG (g : Game) (pid row col : Nat) (now : String) :
    Option (MarkAck × Game) :=
  if g.closed || !g.started then some (.failSilent, g) else
  match g.players.find? fun p => p.id = pid with
  | none => some (.failSilent, g)
  | some p =>
    if p.disqualified then some (.failSilent, g) else
    match p.card.numbers[col]? with
    | none => none
    | some column =>
      match column[row]? with
      | none => some (.failNotDrawn, g)
      | some .free => some (.ok, g)
      | some (.num n) =>
        if !g.drawn.contains n then some (.failNotDrawn, g) else
        if markedAt p.card.marked row col then some (.ok, g) else
        let card2 : Card := { p.card with marked := setMarked p.card.marked row col }
        let p2 : Player := { p with card := card2 }
        let g2 : Game := { g with players := g.players.map fun q => if q.id = pid then p2 else q }
        if hasBingo card2.marked && !g2.closed then
          some (.ok, closeGame g2 { id := p.id, name := p.name, timeISO := now })
        else
          some (.ok, g2)

/-- Acknowledgment of `player:claim`: silent failure, a valid claim
carrying `game.winner`, or the disqualifying invalid claim. -/
inductive ClaimAck where
  | failSilent
  | valid : Option Winner → ClaimAck
  | invalid
deriving DecidableEq

/-- `player:claim` on a found session: phase guard, unknown-player
guard, then either close with this player as winner (when the grid has
bingo) or permanently disqualify. -/
def playerClaimG (g : Game) (pid : Nat) (now : String) : ClaimAck × Game :=
  if g.closed || !g.started then (.failSilent, g) else
  match g.players.find? fun p => p.id = pid with
  | none => (.failSilent, g)
  | some p =>
    if hasBingo p.card.marked then
      let g2 := if !g.closed then closeGame g { id := p.id, name := p.name, timeISO := now } else g
      (.valid g2.winner, g2)
    else
      let p2 : Player := { p with disqualified := true }
      (.invalid, { g with players := g.players.map fun q => if q.id = pid then p2 else q })

/-- `disconnect`: remove the connection's player entry. -/
def disconnectG (pid : Nat) (g : Game) : Game :=
  { g with players := g.players.filter fun p => p.id ≠ pid }

/-- Every per-session operation of the state machine, with its oracle
arguments. -/
inductive GOp where
  | hJoin (host : Nat)
  | hStart
  | hStop
  | hReset
  | pJoin (pid : Nat) (name : String) (card : Card)
  | pMark (pid row col : Nat) (now : String)
  | pClaim (pid : Nat) (now : String)
  | leave (pid : Nat)
  | tick (k : Nat)
  | firstDraw (k : Nat)
deriving DecidableEq

/-- The session-state effect of each operation (`host:reset` replaces
the session with `newGameState` under the same code and host; a crash
of `player:mark` on an out-of-range index leaves the state unchanged
since the lookup precedes every mutation). -/
def applyGOp (op : GOp) (g : Game) : Game :=
  match op with
  | .hJoin h => hostJoinG h g
  | .hStart => (hostStartG g).2
  | .hStop => hostStopG g
  | .hReset => newGameState g.id g.hostSocketId
  | .pJoin pid name card => (playerJoinG g pid name card).2
  | .pMark pid row col now => ((playerMarkG g pid row col now).map Prod.snd).getD g
  | .pClaim pid now => (playerClaimG g pid now).2
  | .leave pid => disconnectG pid g
  | .tick k => autoDrawTick g k
  | .firstDraw k => delayedFirstDraw g k

/-- The `closed` invariant: a closed session is not started and has no
live auto-draw timer. -/
def closedInvB (g : Game) : Bool :=
  !g.closed || (!g.started && !g.interval)

/-- The session registry `games` (a JS `Map` keyed by code). -/
abbrev Registry := List (String × Game)

/-- `games.get(code)`. -/
def gamesGet (games : Registry) (code : String) : Option Game :=
  (games.find? fun p => p.1 = code).map Prod.snd

/-- `games.set(code, g)` as far as later lookups are concerned. -/
def gamesSet (games : Registry) (code : String) (g : Game) : Registry :=
  (code, g) :: games.filter fun p => p.1 ≠ code

/-- Acknowledgment of `host:reset`. -/
inductive ResetAck where
  | notFound
  | ok
deriving DecidableEq

/-- `host:reset`: not-found guard, else replace the session with a
fresh one under the same code and host (the old timer is cleared with
the discarded object). -/
def hostReset (games : Registry) (gameId : String) : ResetAck × Registry :=
  let code := normalizeCode gameId
  match gamesGet games code with
  | none => (.notFound, games)
  | some cur => (.ok, gamesSet games code (newGameState code cur.hostSocketId))

/-! Concrete sample data used to exercise the embedding. -/

/-- A grid whose first row is complete. -/
def rowGrid : List (List Bool) :=
  [[true, true, true, true, true],
   [false, false, false, false, false],
   [false, false, false, false, false],
   [false, false, false, false, false],
   [false, false, false, false, false]]

/-- A grid whose anti-diagonal is complete. -/
def antiGrid : List (List Bool) :=
  [[false, false, false, false, true],
   [false, false, false, true, false],
   [false, false, true, false, false],
   [false, true, false, false, false],
   [true, false, false, false, false]]

/-- The anti-diagonal grid with cell (0,4) still unmarked. -/
def almostAntiGrid : List (List Bool) :=
  [[false, false, false, false, false],
   [false, false, false, true, false],
   [false, false, true, false, false],
   [false, true, false, false, false],
   [true, false, false, false, false]]

/-- A freshly generated marked-grid: only the center is marked. -/
def centerGrid : List (List Bool) :=
  [[false, false, false, false, false],
   [false, false, false, false, false],
   [false, false, true, false, false],
   [false, false, false, false, false],
   [false, false, false, false, false]]

/-- The center grid with the extra mark (4,0) (number 5). -/
def centerAndCornerGrid : List (List Bool) :=
  [[false, false, false, false, false],
   [false, false, false, false, false],
   [false, false, true, false, false],
   [false, false, false, false, false],
   [true, false, false, false, false]]

/-- Well-formed column-major card numbers. -/
def demoNumbers : List (List Cell) :=
  [[.num 1, .num 2, .num 3, .num 4, .num 5],
   [.num 16, .num 17, .num 18, .num 19, .num 20],
   [.num 31, .num 32, .free, .num 34, .num 35],
   [.num 46, .num 47, .num 48, .num 49, .num 50],
   [.num 61, .num 62, .num 63, .num 64, .num 65]]

/-- A card whose anti-diagonal is fully marked (a winning grid). -/
def winCard : Card := { numbers := demoNumbers, marked := antiGrid }

/-- A fresh card (only the center marked). -/
def blankCard : Card := { numbers := demoNumbers, marked := centerGrid }

/-- A card one mark away from the anti-diagonal bingo. -/
def almostCard : Card := { numbers := demoNumbers, marked := almostAntiGrid }

/-- A card with the cell (4,0) already marked. -/
def cornerCard : Card := { numbers := demoNumbers, marked := centerAndCornerGrid }

/-- The recorded winner of the closed demo session. -/
def aliceWinner : Winner := { id := 1, name := "Alice", timeISO := "t0" }

/-- A closed session whose player Bob holds a winning grid. -/
def closedDemoGame : Game :=
  { id := "ABCD", hostSocketId := 0
    players := [{ id := 2, name := "Bob", card := winCard, disqualified := false }]
    started := false, closed := true, winner := some aliceWinner
    numbers := bingoPool, drawn := [5], current := some 5, interval := false }

/-- A running session whose disqualified player Bob holds a winning grid. -/
def dqDemoGame : Game :=
  { id := "ABCD", hostSocketId := 0
    players := [{ id := 2, name := "Bob", card := winCard, disqualified := true }]
    started := true, closed := false, winner := none
    numbers := bingoPool, drawn := [5, 19, 47], current := some 47, interval := true }

/-- A running session with the non-disqualified player Bob on a fresh
card; 5, 19 and 47 have been drawn. -/
def openDemoGame : Game :=
  { id := "ABCD", hostSocketId := 0
    players := [{ id := 2, name := "Bob", card := blankCard, disqualified := false }]
    started := true, closed := false, winner := none
    numbers := bingoPool, drawn := [5, 19, 47], current := some 47, interval := true }

/-- A running session where Bob holds a winning grid and is not
disqualified. -/
def openWinGame : Game :=
  { id := "ABCD", hostSocketId := 0
    players := [{ id := 2, name := "Bob", card := winCard, disqualified := false }]
    started := true, closed := false, winner := none
    numbers := bingoPool, drawn := [5, 19, 47], current := some 47, interval := true }

/-- A running session where Bob is one mark (61 at row 0, col 4) away
from bingo; 61 has been drawn. -/
def markWinGame : Game :=
  { id := "ABCD", hostSocketId := 0
    players := [{ id := 2, name := "Bob", card := almostCard, disqualified := false }]
    started := true, closed := false, winner := none
    numbers := bingoPool, drawn := [61], current := some 61, interval := true }

/-- A running session where Bob has the cell (4,0) (number 5, drawn)
already marked. -/
def cornerDemoGame : Game :=
  { id := "ABCD", hostSocketId := 0
    players := [{ id := 2, name := "Bob", card := cornerCard, disqualified := false }]
    started := true, closed := false, winner := none
    numbers := bingoPool, drawn := [5, 19, 47], current := some 47, interval := true }

/-- A running session in which every pool number has been drawn. -/
def exhaustedGame : Game :=
  { id := "ABCD", hostSocketId := 0
    players := [{ id := 2, name := "Bob", card := blankCard, disqualified := false }]
    started := true, closed := false, winner := none
    numbers := bingoPool, drawn := bingoPool, current := some 75, interval := true }

/-- A candidate random stream for `createCard` producing the first five
values of every column range. -/
def demoStream : Nat → List Nat := fun _ => [0, 1, 2, 3, 4]

/-- A one-session demo registry. -/
def demoRegistry : Registry := [("ABCD", closedDemoGame)]

end Bingo

/-! Helper lemmas. -/

namespace Bingo

theorem getD_eq_getElem_of_lt {α : Type} (l : List α) (d : α) {i : Nat} (h : i < l.length) :
    l.getD i d = l[i] := by
  simp [List.getD_eq_getElem?_getD, List.getElem?_eq_getElem h]

theorem getD_mem_of_lt {α : Type} (l : List α) (d : α) {i : Nat} (h : i < l.length) :
    l.getD i d ∈ l := by
  rw [getD_eq_getElem_of_lt l d h]
  exact l.getElem_mem h

theorem all_getD_iff {α : Type} (l : List α) (d : α) (p : α → Bool) :
    (l.all p = true) ↔ ∀ i < l.length, p (l.getD i d) = true := by
  simp only [List.all_eq_true]
  constructor
  · intro h i hi
    rw [getD_eq_getElem_of_lt l d hi]
    exact h _ (l.getElem_mem hi)
  · intro h a ha
    rcases List.mem_iff_getElem.1 ha with ⟨i, hi, rfl⟩
    have hh := h i hi
    rwa [getD_eq_getElem_of_lt l d hi] at hh

theorem enumFrom_all_iff (l : List (List Bool)) (s : Nat) (q : Nat → List Bool → Bool) :
    ((l.enumFrom s).all fun ri => q ri.1 ri.2) = true ↔
      ∀ i < l.length, q (s + i) (l.getD i []) = true := by
  induction l generalizing s with
  | nil => simp
  | cons a l ih =>
    simp only [List.enumFrom_cons, List.all_cons, Bool.and_eq_true, ih]
    constructor
    · rintro ⟨h0, hrest⟩ i hi
      cases i with
      | zero =>
        rw [Nat.add_zero]
        exact h0
      | succ j =>
        have hj := hrest j (Nat.lt_of_succ_lt_succ hi)
        have harith : s + 1 + j = s + (j + 1) := by omega
        rw [harith] at hj
        rw [List.getD_cons_succ]
        exact hj
    · intro h
      have h0 := h 0 (Nat.succ_pos _)
      rw [Nat.add_zero] at h0
      refine ⟨h0, fun j hj => ?_⟩
      have hh := h (j + 1) (Nat.succ_lt_succ hj)
      have harith : s + (j + 1) = s + 1 + j := by omega
      rw [harith, List.getD_cons_succ] at hh
      exact hh

end Bingo

/-! Claim theorems. -/

namespace Bingo

/-- C5: `hasBingo` returns true iff some row, some column, the main
diagonal, or the anti-diagonal of the 5×5 marked-grid is entirely
true. -/
theorem hasBingo_iff_line (m : List (List Bool)) (hlen : m.length = 5)
    (hrow : ∀ row ∈ m, row.length = 5) :
    hasBingo m = true ↔
      ((∃ r < 5, ∀ c < 5, markedAt m r c = true) ∨
       (∃ c < 5, ∀ r < 5, markedAt m r c = true) ∨
       (∀ i < 5, markedAt m i i = true) ∨
       (∀ i < 5, markedAt m i (4 - i) = true)) := by
  have hrowD : ∀ i, i < 5 → (m.getD i []).length = 5 := by
    intro i hi
    have hi5 : i < m.length := by omega
    rw [getD_eq_getElem_of_lt m [] hi5]
    exact hrow _ (m.getElem_mem hi5)
  have h1 : ((List.range 5).any fun r => (m.getD r []).all fun b => b) = true ↔
      (∃ r < 5, ∀ c < 5, markedAt m r c = true) := by
    simp only [List.any_eq_true, List.mem_range, markedAt]
    constructor
    · rintro ⟨r, hr, hall⟩
      refine ⟨r, hr, fun c hc => ?_⟩
      exact (all_getD_iff _ false _).1 hall c (by rw [hrowD r hr]; exact hc)
    · rintro ⟨r, hr, hall⟩
      exact ⟨r, hr, (all_getD_iff _ false _).2 fun c hc =>
        hall c (by rwa [hrowD r hr] at hc)⟩
  have h2 : ((List.range 5).any fun c => m.all fun row => row.getD c false) = true ↔
      (∃ c < 5, ∀ r < 5, markedAt m r c = true) := by
    simp only [List.any_eq_true, List.mem_range, markedAt]
    constructor
    · rintro ⟨c, hc, hall⟩
      refine ⟨c, hc, fun r hr => ?_⟩
      exact (all_getD_iff _ [] _).1 hall r (by rw [hlen]; exact hr)
    · rintro ⟨c, hc, hall⟩
      exact ⟨c, hc, (all_getD_iff _ [] _).2 fun r hr =>
        hall r (by rwa [hlen] at hr)⟩
  have h3 : (m.enum.all fun ri => ri.2.getD ri.1 false) = true ↔
      (∀ i < 5, markedAt m i i = true) := by
    have he := enumFrom_all_iff m 0 fun i row => row.getD i false
    rw [hlen] at he
    refine he.trans ?_
    constructor
    · intro h i hi
      simpa [markedAt] using h i hi
    · intro h i hi
      simpa [markedAt] using h i hi
  have h4 : (m.enum.all fun ri => ri.2.getD (4 - ri.1) false) = true ↔
      (∀ i < 5, markedAt m i (4 - i) = true) := by
    have he := enumFrom_all_iff m 0 fun i row => row.getD (4 - i) false
    rw [hlen] at he
    refine he.trans ?_
    constructor
    · intro h i hi
      simpa [markedAt] using h i hi
    · intro h i hi
      simpa [markedAt] using h i hi
  unfold hasBingo
  rw [Bool.or_eq_true, Bool.or_eq_true, Bool.or_eq_true, h1, h2, h3, h4, or_assoc, or_assoc]

/-- C5 witness: the bingo criterion instantiated at the complete-row
grid. -/
theorem hasBingo_iff_line_witness :
    (hasBingo rowGrid = true ↔
      ((∃ r < 5, ∀ c < 5, markedAt rowGrid r c = true) ∨
       (∃ c < 5, ∀ r < 5, markedAt rowGrid r c = true) ∨
       (∀ i < 5, markedAt rowGrid i i = true) ∨
       (∀ i < 5, markedAt rowGrid i (4 - i) = true))) ∧
    hasBingo rowGrid = true := by
  have h := hasBingo_iff_line rowGrid (by decide) (by decide)
  exact ⟨h, h.2 (Or.inl ⟨0, by decide, by decide⟩)⟩

end Bingo

namespace Bingo

theorem closeGame_winner (g : Game) (w : Winner) : (closeGame g w).winner = some w := rfl

theorem closeGame_closed (g : Game) (w : Winner) : (closeGame g w).closed = true := rfl

theorem closeGame_started (g : Game) (w : Winner) : (closeGame g w).started = false := rfl

theorem closeGame_interval (g : Game) (w : Winner) : (closeGame g w).interval = false := rfl

theorem closeGame_players (g : Game) (w : Winner) : (closeGame g w).players = g.players := rfl

/-- C1 counterexample: in the closed demo session Bob's grid satisfies
the Win Detector, yet his claim gets the silent ok:false failure, not
valid=true with the recorded winner. -/
theorem playerClaim_closed_cex :
    closedDemoGame.closed = true ∧
    (closedDemoGame.players.find? fun q => q.id = 2) =
      some { id := 2, name := "Bob", card := winCard, disqualified := false } ∧
    hasBingo winCard.marked = true ∧
    playerClaimG closedDemoGame 2 "t1" = (ClaimAck.failSilent, closedDemoGame) := by
  refine ⟨rfl, by decide, by decide, by decide⟩

/-- C1 (amended): on a started, non-closed session a claim by a known
player whose marked-grid satisfies the Win Detector closes the session
and reports valid=true with that player as the winner; a claim on an
already-closed session instead fails silently with ok:false, leaving
the session unchanged. -/
theorem playerClaim_win_or_closed_guard :
    (∀ g pid now p, g.started = true → g.closed = false →
      (g.players.find? fun q => q.id = pid) = some p →
      hasBingo p.card.marked = true →
      playerClaimG g pid now =
        (ClaimAck.valid (some { id := p.id, name := p.name, timeISO := now }),
         closeGame g { id := p.id, name := p.name, timeISO := now })) ∧
    (∀ g pid now, g.closed = true →
      playerClaimG g pid now = (ClaimAck.failSilent, g)) := by
  constructor
  · intro g pid now p hs hc hfind hb
    unfold playerClaimG
    rw [hc, hs, hfind]
    simp [hb, closeGame_winner]
  · intro g pid now hc
    unfold playerClaimG
    rw [hc]
    simp

/-- C1 witness: the amended claim at the running session with Bob's
winning grid and at the closed demo session. -/
theorem playerClaim_win_or_closed_guard_witness :
    playerClaimG openWinGame 2 "t1" =
      (ClaimAck.valid (some { id := 2, name := "Bob", timeISO := "t1" }),
       closeGame openWinGame { id := 2, name := "Bob", timeISO := "t1" }) ∧
    playerClaimG closedDemoGame 2 "t1" = (ClaimAck.failSilent, closedDemoGame) := by
  constructor
  · exact playerClaim_win_or_closed_guard.1 openWinGame 2 "t1"
      { id := 2, name := "Bob", card := winCard, disqualified := false }
      rfl rfl (by decide) (by decide)
  · exact playerClaim_win_or_closed_guard.2 closedDemoGame 2 "t1" rfl

/-- C2 counterexample: in the running demo session Bob is disqualified
and his grid has bingo; his claim is still accepted as valid=true and
he becomes the winner. -/
theorem disqualified_claim_cex :
    (dqDemoGame.players.find? fun q => q.id = 2) =
      some { id := 2, name := "Bob", card := winCard, disqualified := true } ∧
    (playerClaimG dqDemoGame 2 "t1").1 =
      ClaimAck.valid (some { id := 2, name := "Bob", timeISO := "t1" }) ∧
    (playerClaimG dqDemoGame 2 "t1").2.closed = true ∧
    (playerClaimG dqDemoGame 2 "t1").2.winner =
      some { id := 2, name := "Bob", timeISO := "t1" } := by
  refine ⟨by decide, by decide, by decide, by decide⟩

/-- C2 (amended): under the phase guards a disqualified player's mark
fails silently with ok:false and leaves the session (hence the player
list) unchanged, but playerClaim never checks disqualification: a
disqualified player's claim is processed like any other, so with a
winning grid it closes the session with that player as the winner,
the player list unchanged. -/
theorem disqualified_mark_claim :
    (∀ g pid row col now p, g.started = true → g.closed = false →
      (g.players.find? fun q => q.id = pid) = some p →
      p.disqualified = true →
      playerMarkG g pid row col now = some (MarkAck.failSilent, g)) ∧
    (∀ g pid now p, g.started = true → g.closed = false →
      (g.players.find? fun q => q.id = pid) = some p →
      p.disqualified = true → hasBingo p.card.marked = true →
      (playerClaimG g pid now).1 =
        ClaimAck.valid (some { id := p.id, name := p.name, timeISO := now }) ∧
      (playerClaimG g pid now).2.closed = true ∧
      (playerClaimG g pid now).2.winner =
        some { id := p.id, name := p.name, timeISO := now } ∧
      (playerClaimG g pid now).2.players = g.players) := by
  constructor
  · intro g pid row col now p hs hc hfind hdq
    unfold playerMarkG
    rw [hc, hs, hfind]
    simp [hdq]
  · intro g pid now p hs hc hfind hdq hb
    unfold playerClaimG
    rw [hc, hs, hfind]
    simp [hb, closeGame_winner, closeGame_closed, closeGame_players]

/-- C2 witness: the amended behavior at the running demo session with
the disqualified Bob. -/
theorem disqualified_mark_claim_witness :
    playerMarkG dqDemoGame 2 0 0 "t1" = some (MarkAck.failSilent, dqDemoGame) ∧
    (playerClaimG dqDemoGame 2 "t1").1 =
      ClaimAck.valid (some { id := 2, name := "Bob", timeISO := "t1" }) := by
  constructor
  · exact disqualified_mark_claim.1 dqDemoGame 2 0 0 "t1"
      { id := 2, name := "Bob", card := winCard, disqualified := true }
      rfl rfl (by decide) rfl
  · exact (disqualified_mark_claim.2 dqDemoGame 2 "t1"
      { id := 2, name := "Bob", card := winCard, disqualified := true }
      rfl rfl (by decide) rfl (by decide)).1

end Bingo

namespace Bingo

theorem cardValue_eq_some (card : Card) (row col : Nat) (cell : Cell)
    (h : cardValue card row col = some cell) :
    ∃ column, card.numbers[col]? = some column ∧ column[row]? = some cell := by
  unfold cardValue at h
  cases hcol : card.numbers[col]? with
  | none =>
    rw [hcol] at h
    cases h
  | some column =>
    rw [hcol] at h
    simp only [Option.some_bind] at h
    exact ⟨column, rfl, h⟩

theorem playerMarkG_guards (g : Game) (pid row col : Nat) (now : String) (p : Player)
    (hs : g.started = true) (hc : g.closed = false)
    (hfind : (g.players.find? fun q => q.id = pid) = some p)
    (hdq : p.disqualified = false) :
    playerMarkG g pid row col now =
      match p.card.numbers[col]? with
      | none => none
      | some column =>
        match column[row]? with
        | none => some (.failNotDrawn, g)
        | some .free => some (.ok, g)
        | some (.num n) =>
          if !g.drawn.contains n then some (.failNotDrawn, g) else
          if markedAt p.card.marked row col then some (.ok, g) else
          let card2 : Card := { p.card with marked := setMarked p.card.marked row col }
          let p2 : Player := { p with card := card2 }
          let g2 : Game :=
            { g with players := g.players.map fun q => if q.id = pid then p2 else q }
          if hasBingo card2.marked && !g2.closed then
            some (.ok, closeGame g2 { id := p.id, name := p.name, timeISO := now })
          else
            some (.ok, g2) := by
  unfold playerMarkG
  rw [hc, hs, hfind]
  simp [hdq]

/-- C9: under the phase and player guards, a mark on a cell holding a
non-FREE number is answered with the Number-not-drawn failure iff that
number is absent from the drawn history, and then the session (hence
every marked-grid) is unchanged; when the number has been drawn the
acknowledgment is ok:true.  Marking the FREE cell, or a cell that is
already marked, is an ok:true no-op leaving the session unchanged. -/
theorem mark_drawn_rules :
    ∀ g pid row col now p, g.started = true → g.closed = false →
      (g.players.find? fun q => q.id = pid) = some p →
      p.disqualified = false →
      ((∀ n, cardValue p.card row col = some (Cell.num n) →
        ((n ∉ g.drawn ↔
          playerMarkG g pid row col now = some (MarkAck.failNotDrawn, g)) ∧
         (n ∈ g.drawn →
          (playerMarkG g pid row col now).map Prod.fst = some MarkAck.ok))) ∧
       (cardValue p.card row col = some Cell.free →
        playerMarkG g pid row col now = some (MarkAck.ok, g)) ∧
       (∀ n, cardValue p.card row col = some (Cell.num n) → n ∈ g.drawn →
        markedAt p.card.marked row col = true →
        playerMarkG g pid row col now = some (MarkAck.ok, g))) := by
  intro g pid row col now p hs hc hfind hdq
  refine ⟨fun n hval => ?_, fun hval => ?_, fun n hval hdrawn hmk => ?_⟩
  · obtain ⟨column, hcolq, hrowq⟩ := cardValue_eq_some p.card row col _ hval
    by_cases hdrawn : n ∈ g.drawn
    · have hfst : (playerMarkG g pid row col now).map Prod.fst = some MarkAck.ok := by
        rw [playerMarkG_guards g pid row col now p hs hc hfind hdq]
        simp only [hcolq, hrowq]
        simp [hdrawn]
        by_cases hmk : markedAt p.card.marked row col
        · simp [hmk]
        · simp [hmk]
          split <;> exact ⟨_, rfl⟩
      refine ⟨⟨fun habs => absurd hdrawn habs, fun heq => ?_⟩, fun _ => hfst⟩
      rw [heq] at hfst
      simp at hfst
    · have heq : playerMarkG g pid row col now = some (MarkAck.failNotDrawn, g) := by
        rw [playerMarkG_guards g pid row col now p hs hc hfind hdq]
        simp only [hcolq, hrowq]
        simp [hdrawn]
      exact ⟨⟨fun _ => heq, fun _ => hdrawn⟩, fun hmem => absurd hmem hdrawn⟩
  · obtain ⟨column, hcolq, hrowq⟩ := cardValue_eq_some p.card row col _ hval
    rw [playerMarkG_guards g pid row col now p hs hc hfind hdq]
    simp only [hcolq, hrowq]
  · obtain ⟨column, hcolq, hrowq⟩ := cardValue_eq_some p.card row col _ hval
    rw [playerMarkG_guards g pid row col now p hs hc hfind hdq]
    simp only [hcolq, hrowq]
    simp [hdrawn, hmk]

end Bingo

namespace Bingo

/-- C9 witness: the undrawn number 1 at (0,0), the FREE cell at (2,2),
and the already-marked drawn cell (4,0), in the running demo
sessions. -/
theorem mark_drawn_rules_witness :
    playerMarkG openDemoGame 2 0 0 "t1" = some (MarkAck.failNotDrawn, openDemoGame) ∧
    playerMarkG openDemoGame 2 2 2 "t1" = some (MarkAck.ok, openDemoGame) ∧
    playerMarkG cornerDemoGame 2 4 0 "t1" = some (MarkAck.ok, cornerDemoGame) := by
  refine ⟨?_, ?_, ?_⟩
  · exact ((mark_drawn_rules openDemoGame 2 0 0 "t1"
      { id := 2, name := "Bob", card := blankCard, disqualified := false }
      rfl rfl (by decide) rfl).1 1 (by decide)).1.1 (by decide)
  · exact (mark_drawn_rules openDemoGame 2 2 2 "t1"
      { id := 2, name := "Bob", card := blankCard, disqualified := false }
      rfl rfl (by decide) rfl).2.1 (by decide)
  · exact (mark_drawn_rules cornerDemoGame 2 4 0 "t1"
      { id := 2, name := "Bob", card := cornerCard, disqualified := false }
      rfl rfl (by decide) rfl).2.2 5 (by decide) (by decide) (by decide)

end Bingo

namespace Bingo

/-- C10 counterexample: with col = 0 in range and row = 9 past the
card, the mark on the running demo session is still defined and
answers with the Number-not-drawn failure and an unchanged session —
the handler is total outside the claimed `row ≤ 4` precondition. -/
theorem mark_row_overrun_cex :
    playerMarkG openDemoGame 2 9 0 "t1" = some (MarkAck.failNotDrawn, openDemoGame) ∧
    ¬(9 < 5 ∧ 0 < 5) := by
  exact ⟨by decide, by omega⟩

/-- C10 (amended): playerMark performs no bounds check.  Once the
guards pass on a well-formed 5×5 card, only the column index governs
definedness: with col past the card, `numbers[col]` is undefined and
the `[row]` access on it throws (embedded as `none`), so the operation
is total exactly under `col ≤ 4`; with col in range and row past the
card the lookup just reads undefined, which fails the drawn check, and
the handler answers ok:false with the Number-not-drawn error, the
session unchanged. -/
theorem mark_overrun_rules :
    ∀ g pid row col now p, g.started = true → g.closed = false →
      (g.players.find? fun q => q.id = pid) = some p →
      p.disqualified = false →
      p.card.numbers.length = 5 →
      (∀ colL ∈ p.card.numbers, colL.length = 5) →
      (((playerMarkG g pid row col now).isSome = true ↔ col < 5) ∧
       (5 ≤ col → playerMarkG g pid row col now = none) ∧
       (col < 5 → 5 ≤ row →
        playerMarkG g pid row col now = some (MarkAck.failNotDrawn, g))) := by
  intro g pid row col now p hs hc hfind hdq h5 hcols
  cases hcolq : p.card.numbers[col]? with
  | none =>
    have hres : playerMarkG g pid row col now = none := by
      rw [playerMarkG_guards g pid row col now p hs hc hfind hdq]
      simp only [hcolq]
    have hge : p.card.numbers.length ≤ col := List.getElem?_eq_none_iff.1 hcolq
    rw [h5] at hge
    refine ⟨?_, fun _ => hres, fun hlt _ => absurd hlt (by omega)⟩
    rw [hres]
    simp only [Option.isSome_none, Bool.false_eq_true, false_iff]
    omega
  | some column =>
    rcases List.getElem?_eq_some_iff.1 hcolq with ⟨hlt, hgot⟩
    have hclt : col < 5 := by rw [h5] at hlt; exact hlt
    have hmem : column ∈ p.card.numbers := hgot ▸ p.card.numbers.getElem_mem hlt
    have hclen : column.length = 5 := hcols _ hmem
    cases hrowq : column[row]? with
    | none =>
      have hres : playerMarkG g pid row col now = some (MarkAck.failNotDrawn, g) := by
        rw [playerMarkG_guards g pid row col now p hs hc hfind hdq]
        simp only [hcolq, hrowq]
      exact ⟨by simp [hres, hclt], fun hge => absurd hclt (by omega), fun _ _ => hres⟩
    | some cell =>
      rcases List.getElem?_eq_some_iff.1 hrowq with ⟨hrlt, _⟩
      rw [hclen] at hrlt
      have hsome : (playerMarkG g pid row col now).isSome = true := by
        rw [playerMarkG_guards g pid row col now p hs hc hfind hdq]
        cases cell with
        | free => simp [hcolq, hrowq]
        | num n =>
          simp [hcolq, hrowq]
          repeat' split
          all_goals simp
      exact ⟨by simp [hsome, hclt], fun hge => absurd hclt (by omega),
        fun _ hge => absurd hrlt (by omega)⟩

/-- C10 witness: in the running demo session, col 7 makes the embedded
mark undefined while row 9 with col 0 is defined and yields the
Number-not-drawn failure. -/
theorem mark_overrun_rules_witness :
    ((playerMarkG openDemoGame 2 0 7 "t1").isSome = true ↔ 7 < 5) ∧
    playerMarkG openDemoGame 2 0 7 "t1" = none ∧
    playerMarkG openDemoGame 2 9 0 "t1" = some (MarkAck.failNotDrawn, openDemoGame) := by
  have h7 := mark_overrun_rules openDemoGame 2 0 7 "t1"
    { id := 2, name := "Bob", card := blankCard, disqualified := false }
    rfl rfl (by decide) rfl (by decide) (by decide)
  have h9 := mark_overrun_rules openDemoGame 2 9 0 "t1"
    { id := 2, name := "Bob", card := blankCard, disqualified := false }
    rfl rfl (by decide) rfl (by decide) (by decide)
  exact ⟨h7.1, h7.2.1 (by omega), h9.2.2 (by omega) (by omega)⟩

end Bingo

namespace Bingo

/-- C3: at most one winner per session lifetime: a mark or claim on an
already-closed session is the silent failure and leaves the session —
in particular the winner — unchanged, while a winning fresh mark
(resp. a winning claim) on a running session closes it and records
that player as the winner. -/
theorem single_winner :
    (∀ g pid row col now, g.closed = true →
      playerMarkG g pid row col now = some (MarkAck.failSilent, g)) ∧
    (∀ g pid now, g.closed = true →
      playerClaimG g pid now = (ClaimAck.failSilent, g)) ∧
    (∀ g pid row col now p n, g.closed = false → g.started = true →
      (g.players.find? fun q => q.id = pid) = some p →
      p.disqualified = false →
      cardValue p.card row col = some (Cell.num n) →
      n ∈ g.drawn →
      markedAt p.card.marked row col = false →
      hasBingo (setMarked p.card.marked row col) = true →
      ((playerMarkG g pid row col now).map fun r => (r.1, r.2.closed, r.2.winner)) =
        some (MarkAck.ok, true, some { id := p.id, name := p.name, timeISO := now })) ∧
    (∀ g pid now p, g.closed = false → g.started = true →
      (g.players.find? fun q => q.id = pid) = some p →
      hasBingo p.card.marked = true →
      (playerClaimG g pid now).2.closed = true ∧
      (playerClaimG g pid now).2.winner =
        some { id := p.id, name := p.name, timeISO := now }) := by
  refine ⟨fun g pid row col now hc => ?_, fun g pid now hc => ?_,
    fun g pid row col now p n hc hs hfind hdq hval hdrawn hmk hb => ?_,
    fun g pid now p hc hs hfind hb => ?_⟩
  · unfold playerMarkG
    rw [hc]
    simp
  · unfold playerClaimG
    rw [hc]
    simp
  · obtain ⟨column, hcolq, hrowq⟩ := cardValue_eq_some p.card row col _ hval
    rw [playerMarkG_guards g pid row col now p hs hc hfind hdq]
    simp only [hcolq, hrowq]
    simp [hc, hdrawn, hmk, hb, closeGame_closed, closeGame_winner]
  · unfold playerClaimG
    rw [hc, hs, hfind]
    simp [hb, closeGame_closed, closeGame_winner]

/-- C3 witness: the closed demo session absorbs mark and claim
unchanged; the winning mark at (0,4) on the almost-complete card and
Bob's claim on the running session each close the session with Bob as
winner. -/
theorem single_winner_witness :
    playerMarkG closedDemoGame 2 0 0 "t1" = some (MarkAck.failSilent, closedDemoGame) ∧
    playerClaimG closedDemoGame 2 "t1" = (ClaimAck.failSilent, closedDemoGame) ∧
    ((playerMarkG markWinGame 2 0 4 "t1").map fun r => (r.1, r.2.closed, r.2.winner)) =
      some (MarkAck.ok, true, some { id := 2, name := "Bob", timeISO := "t1" }) ∧
    ((playerClaimG openWinGame 2 "t2").2.closed = true ∧
     (playerClaimG openWinGame 2 "t2").2.winner =
       some { id := 2, name := "Bob", timeISO := "t2" }) := by
  refine ⟨?_, ?_, ?_, ?_⟩
  · exact single_winner.1 closedDemoGame 2 0 0 "t1" rfl
  · exact single_winner.2.1 closedDemoGame 2 "t1" rfl
  · exact single_winner.2.2.1 markWinGame 2 0 4 "t1"
      { id := 2, name := "Bob", card := almostCard, disqualified := false } 61
      rfl rfl (by decide) rfl (by decide) (by decide) (by decide) (by decide)
  · exact single_winner.2.2.2 openWinGame 2 "t2"
      { id := 2, name := "Bob", card := winCard, disqualified := false }
      rfl rfl (by decide) (by decide)

end Bingo

namespace Bingo

theorem closedInvB_stopAutoDraw (g : Game) : closedInvB (stopAutoDraw g) = true := by
  unfold closedInvB stopAutoDraw
  simp

theorem closedInvB_closeGame (g : Game) (w : Winner) : closedInvB (closeGame g w) = true := rfl

theorem closedInvB_of_closed_false (g : Game) (hc : g.closed = false) : closedInvB g = true := by
  unfold closedInvB
  rw [hc]
  rfl

theorem bool_eq_false_of_ne_true {b : Bool} (h : ¬b = true) : b = false := by
  cases b
  · rfl
  · exact absurd rfl h

theorem closedInvB_players_update (g : Game) (ps : List Player)
    (h : closedInvB g = true) : closedInvB { g with players := ps } = true := by
  simpa [closedInvB] using h

theorem drawNumber_snd_closed (g : Game) (k : Nat) : (drawNumber g k).2.closed = g.closed := by
  simp only [drawNumber]
  by_cases h : (g.numbers.filter fun n => !g.drawn.contains n).isEmpty = true
  · rw [if_pos h]
  · rw [if_neg h]

theorem drawNumber_snd_started (g : Game) (k : Nat) :
    (drawNumber g k).2.started = g.started := by
  simp only [drawNumber]
  by_cases h : (g.numbers.filter fun n => !g.drawn.contains n).isEmpty = true
  · rw [if_pos h]
  · rw [if_neg h]

theorem drawNumber_snd_interval (g : Game) (k : Nat) :
    (drawNumber g k).2.interval = g.interval := by
  simp only [drawNumber]
  by_cases h : (g.numbers.filter fun n => !g.drawn.contains n).isEmpty = true
  · rw [if_pos h]
  · rw [if_neg h]

theorem closedInvB_drawNumber (g : Game) (k : Nat) (h : closedInvB g = true) :
    closedInvB (drawNumber g k).2 = true := by
  unfold closedInvB at h ⊢
  rw [drawNumber_snd_closed, drawNumber_snd_started, drawNumber_snd_interval]
  exact h

/-- The `closed` flag survives every operation other than reset. -/
theorem closed_stays (op : GOp) (g : Game) (hop : op ≠ GOp.hReset) (hc : g.closed = true) :
    (applyGOp op g).closed = true := by
  cases op with
  | hJoin h => simpa [applyGOp, hostJoinG] using hc
  | hStart => simp [applyGOp, hostStartG, hc]
  | hStop => simpa [applyGOp, hostStopG, stopAutoDraw] using hc
  | hReset => exact absurd rfl hop
  | pJoin pid name card => simp [applyGOp, playerJoinG, hc]
  | pMark pid row col now => simp [applyGOp, playerMarkG, hc]
  | pClaim pid now => simp [applyGOp, playerClaimG, hc]
  | leave pid => simpa [applyGOp, disconnectG] using hc
  | tick k => simp [applyGOp, autoDrawTick, hc]
  | firstDraw k => simp [applyGOp, delayedFirstDraw, hc]

/-- C4: the closed-session invariant — `closed` implies not `started`
and no live auto-draw timer — holds of every fresh session and is
preserved by every operation, and `host:start` rejects a closed
session unchanged. -/
theorem closed_inv :
    (∀ code host, closedInvB (newGameState code host) = true) ∧
    (∀ op g, closedInvB g = true → closedInvB (applyGOp op g) = true) ∧
    (∀ g, g.closed = true → hostStartG g = (StartAck.gameEnded, g)) := by
  refine ⟨fun code host => rfl, fun op g hInv => ?_, fun g hc => ?_⟩
  · cases op with
    | hJoin h => simpa [applyGOp, hostJoinG, closedInvB] using hInv
    | hStart =>
      unfold applyGOp hostStartG
      by_cases hc : g.closed = true
      · simp [hc, hInv]
      · have hcf := bool_eq_false_of_ne_true hc
        by_cases hp : g.players.length = 0
        · simp [hcf, hp, hInv]
        · simp [hcf, hp, closedInvB, startAutoDraw]
    | hStop =>
      simpa [applyGOp, hostStopG] using closedInvB_stopAutoDraw g
    | hReset => simp [applyGOp, closedInvB, newGameState]
    | pJoin pid name card =>
      unfold applyGOp playerJoinG
      by_cases hc : g.closed = true
      · simp [hc, hInv]
      · have hcf := bool_eq_false_of_ne_true hc
        rw [hcf]
        simp only [Bool.false_eq_true, if_false]
        by_cases hn : name.trim.take 20 = ""
        · simp [hn, hInv]
        · rw [if_neg hn]
          by_cases hdup : (g.players.any fun p => p.name.toLower = (name.trim.take 20).toLower) = true
          · simp [hdup, hInv]
          · have hdupf := bool_eq_false_of_ne_true hdup
            simp only [hdupf, Bool.false_eq_true, if_false]
            simp [closedInvB]
    | pMark pid row col now =>
      unfold applyGOp playerMarkG
      by_cases hc : g.closed = true
      · simp [hc, hInv]
      · have hcf := bool_eq_false_of_ne_true hc
        by_cases hst : g.started = true
        · rw [hcf, hst]
          simp only [Bool.not_true, Bool.or_false, Bool.false_or, Bool.false_eq_true,
            if_false]
          cases hfind : g.players.find? fun q => q.id = pid with
          | none => simpa using hInv
          | some p =>
            by_cases hdq : p.disqualified = true
            · simp [hdq, hInv]
            · have hdqf := bool_eq_false_of_ne_true hdq
              simp only [hdqf]
              cases hcolq : p.card.numbers[col]? with
              | none => simpa using hInv
              | some column =>
                cases hrowq : column[row]? with
                | none => simpa [hrowq] using hInv
                | some cell =>
                  cases cell with
                  | free => simpa [hrowq] using hInv
                  | num n =>
                    simp [hrowq]
                    repeat' split
                    all_goals
                      first
                        | simpa using hInv
                        | simpa using closedInvB_closeGame _
                            { id := p.id, name := p.name, timeISO := now }
                        | simp [closedInvB]
        · have hstf := bool_eq_false_of_ne_true hst
          rw [hcf, hstf]
          simpa using hInv
    | pClaim pid now =>
      unfold applyGOp playerClaimG
      by_cases hc : g.closed = true
      · simp [hc, hInv]
      · have hcf := bool_eq_false_of_ne_true hc
        by_cases hst : g.started = true
        · rw [hcf, hst]
          simp only [Bool.not_true, Bool.or_false, Bool.false_or, Bool.false_eq_true,
            if_false]
          cases hfind : g.players.find? fun q => q.id = pid with
          | none => simpa using hInv
          | some p =>
            by_cases hb : hasBingo p.card.marked = true
            · simp only [hb, hcf, Bool.not_false, if_true]
              simpa using closedInvB_closeGame g
                { id := p.id, name := p.name, timeISO := now }
            · have hbf := bool_eq_false_of_ne_true hb
              simp only [hbf, Bool.false_eq_true, if_false]
              simp [closedInvB]
        · have hstf := bool_eq_false_of_ne_true hst
          rw [hcf, hstf]
          simpa using hInv
    | leave pid => simpa [applyGOp, disconnectG, closedInvB] using hInv
    | tick k =>
      unfold applyGOp autoDrawTick
      by_cases hst : g.started = true
      · by_cases hc : g.closed = true
        · simp [hst, hc, hInv]
        · have hcf := bool_eq_false_of_ne_true hc
          rw [hst, hcf]
          by_cases hd : 75 ≤ g.drawn.length
          · simp [hd, closedInvB_stopAutoDraw]
          · simp only [Bool.not_true, Bool.false_or, Bool.false_eq_true, if_false, hd,
              if_false]
            apply closedInvB_of_closed_false
            rw [drawNumber_snd_closed]
            exact hcf
      · have hstf := bool_eq_false_of_ne_true hst
        rw [hstf]
        simpa using hInv
    | firstDraw k =>
      unfold applyGOp delayedFirstDraw
      by_cases hst : g.started = true
      · by_cases hc : g.closed = true
        · simp [hst, hc, hInv]
        · have hcf := bool_eq_false_of_ne_true hc
          rw [hst, hcf]
          simp only [Bool.not_false, Bool.and_self, if_true]
          apply closedInvB_of_closed_false
          rw [drawNumber_snd_closed]
          exact hcf
      · have hstf := bool_eq_false_of_ne_true hst
        rw [hstf]
        simpa using hInv
  · unfold hostStartG
    rw [hc]
    simp

/-- C4 witness: the invariant at a fresh session, its preservation by a
stop on the closed demo session, and the rejected start there. -/
theorem closed_inv_witness :
    closedInvB (newGameState "ABCD" 0) = true ∧
    closedInvB (applyGOp GOp.hStop closedDemoGame) = true ∧
    hostStartG closedDemoGame = (StartAck.gameEnded, closedDemoGame) := by
  refine ⟨closed_inv.1 "ABCD" 0, closed_inv.2.1 GOp.hStop closedDemoGame (by decide),
    closed_inv.2.2 closedDemoGame rfl⟩

end Bingo

namespace Bingo

theorem drawNumber_some (g : Game) (k : Nat) (n : Nat) (g2 : Game)
    (heq : drawNumber g k = (some n, g2)) :
    n ∈ g.numbers ∧ n ∉ g.drawn ∧ g2.drawn = g.drawn ++ [n] ∧ g2.current = some n ∧
      g2.players = g.players ∧ g2.started = g.started ∧ g2.closed = g.closed ∧
      g2.winner = g.winner ∧ g2.numbers = g.numbers ∧ g2.interval = g.interval := by
  simp only [drawNumber] at heq
  by_cases hemp : (g.numbers.filter fun m => !g.drawn.contains m).isEmpty = true
  · rw [if_pos hemp] at heq
    cases heq
  · rw [if_neg hemp] at heq
    have hne : (g.numbers.filter fun m => !g.drawn.contains m) ≠ [] := by
      intro hnil
      rw [hnil] at hemp
      exact hemp rfl
    have hpos : 0 < (g.numbers.filter fun m => !g.drawn.contains m).length :=
      List.length_pos.2 hne
    have hidx : k % (g.numbers.filter fun m => !g.drawn.contains m).length <
        (g.numbers.filter fun m => !g.drawn.contains m).length := Nat.mod_lt _ hpos
    have hmem : (g.numbers.filter fun m => !g.drawn.contains m).getD
        (k % (g.numbers.filter fun m => !g.drawn.contains m).length) 0 ∈
        (g.numbers.filter fun m => !g.drawn.contains m) := getD_mem_of_lt _ _ hidx
    injection heq with hfst hsnd
    injection hfst with hn
    rcases List.mem_filter.1 hmem with ⟨hpool, hnotdrawn⟩
    rw [hn] at hpool hnotdrawn
    have hnd : n ∉ g.drawn := by
      intro hmemd
      simp [hmemd] at hnotdrawn
    subst hsnd
    refine ⟨hpool, hnd, ?_, ?_, rfl, rfl, rfl, rfl, rfl, rfl⟩
    · show g.drawn ++ [(g.numbers.filter fun m => !g.drawn.contains m).getD
        (k % (g.numbers.filter fun m => !g.drawn.contains m).length) 0] = g.drawn ++ [n]
      rw [hn]
    · show some ((g.numbers.filter fun m => !g.drawn.contains m).getD
        (k % (g.numbers.filter fun m => !g.drawn.contains m).length) 0) = some n
      rw [hn]

end Bingo

namespace Bingo

theorem drawNumber_exhausted (g : Game) (k : Nat) (h : ∀ n ∈ g.numbers, n ∈ g.drawn) :
    drawNumber g k = (none, g) := by
  have hnil : (g.numbers.filter fun m => !g.drawn.contains m) = [] := by
    rw [List.filter_eq_nil_iff]
    intro a ha
    simp [h a ha]
  simp only [drawNumber, hnil]
  rfl

/-- C6: a successful draw returns a pool number not yet drawn, appends
exactly it to the drawn sequence and makes it current (in 1..75 for
the standard pool), leaving all other session state unchanged; once
every pool number is drawn the draw returns null with the session
unchanged, and the auto-draw tick stops the timer at 75 draws. -/
theorem draw_engine :
    (∀ g k n g2, drawNumber g k = (some n, g2) →
      n ∈ g.numbers ∧ n ∉ g.drawn ∧ g2.drawn = g.drawn ++ [n] ∧ g2.current = some n ∧
      g2.players = g.players ∧ g2.started = g.started ∧ g2.closed = g.closed ∧
      g2.winner = g.winner ∧ g2.numbers = g.numbers ∧ g2.interval = g.interval) ∧
    (∀ g k n g2, g.numbers = bingoPool → drawNumber g k = (some n, g2) →
      1 ≤ n ∧ n ≤ 75) ∧
    (∀ g k, (∀ n ∈ g.numbers, n ∈ g.drawn) → drawNumber g k = (none, g)) ∧
    (∀ g k, g.started = true → g.closed = false → 75 ≤ g.drawn.length →
      autoDrawTick g k = stopAutoDraw g ∧ (stopAutoDraw g).interval = false ∧
      (stopAutoDraw g).started = false) := by
  refine ⟨drawNumber_some, fun g k n g2 hpool heq => ?_, drawNumber_exhausted,
    fun g k hs hc hd => ?_⟩
  · have hmem := (drawNumber_some g k n g2 heq).1
    rw [hpool] at hmem
    simp only [bingoPool, List.mem_map, List.mem_range] at hmem
    obtain ⟨i, hi, rfl⟩ := hmem
    omega
  · refine ⟨?_, rfl, rfl⟩
    unfold autoDrawTick
    rw [hs, hc]
    simp [hd]

/-- C6 witness: the first draw on the running demo session yields 1 and
appends it; on the exhausted session the draw returns null unchanged
and the tick stops the auto-draw. -/
theorem draw_engine_witness :
    (1 ∈ openDemoGame.numbers ∧ 1 ∉ openDemoGame.drawn ∧
      (drawNumber openDemoGame 0).2.drawn = openDemoGame.drawn ++ [1]) ∧
    drawNumber exhaustedGame 3 = (none, exhaustedGame) ∧
    autoDrawTick exhaustedGame 3 = stopAutoDraw exhaustedGame := by
  refine ⟨?_, ?_, ?_⟩
  · have h := draw_engine.1 openDemoGame 0 1 (drawNumber openDemoGame 0).2 (by decide)
    exact ⟨h.1, h.2.1, h.2.2.1⟩
  · exact draw_engine.2.2.1 exhaustedGame 3 (by decide)
  · exact (draw_engine.2.2.2 exhaustedGame 3 rfl rfl (by decide)).1

theorem gamesGet_gamesSet (games : Registry) (code : String) (g : Game) :
    gamesGet (gamesSet games code g) code = some g := by
  unfold gamesGet gamesSet
  rw [List.find?_cons_of_pos _ (by simp)]
  rfl

/-- C8: reset on an unknown code fails with Game-not-found and leaves
the registry unchanged; on a known code it replaces the session with a
fresh Idle one under the same normalized code and the old host —
started=false, closed=false, winner=null, drawn=[], no players, no
timer — and no operation other than reset ever takes a session out of
the Closed state. -/
theorem reset_rules :
    (∀ games gameId, gamesGet games (normalizeCode gameId) = none →
      hostReset games gameId = (ResetAck.notFound, games)) ∧
    (∀ games gameId cur, gamesGet games (normalizeCode gameId) = some cur →
      hostReset games gameId =
        (ResetAck.ok, gamesSet games (normalizeCode gameId)
          (newGameState (normalizeCode gameId) cur.hostSocketId)) ∧
      gamesGet (hostReset games gameId).2 (normalizeCode gameId) =
        some (newGameState (normalizeCode gameId) cur.hostSocketId) ∧
      (newGameState (normalizeCode gameId) cur.hostSocketId).id = normalizeCode gameId ∧
      (newGameState (normalizeCode gameId) cur.hostSocketId).hostSocketId =
        cur.hostSocketId ∧
      (newGameState (normalizeCode gameId) cur.hostSocketId).started = false ∧
      (newGameState (normalizeCode gameId) cur.hostSocketId).closed = false ∧
      (newGameState (normalizeCode gameId) cur.hostSocketId).winner = none ∧
      (newGameState (normalizeCode gameId) cur.hostSocketId).drawn = [] ∧
      (newGameState (normalizeCode gameId) cur.hostSocketId).players = [] ∧
      (newGameState (normalizeCode gameId) cur.hostSocketId).interval = false) ∧
    (∀ op g, op ≠ GOp.hReset → g.closed = true → (applyGOp op g).closed = true) := by
  refine ⟨fun games gameId h => ?_, fun games gameId cur h => ?_, closed_stays⟩
  · simp only [hostReset]
    rw [h]
  · have hres : hostReset games gameId =
        (ResetAck.ok, gamesSet games (normalizeCode gameId)
          (newGameState (normalizeCode gameId) cur.hostSocketId)) := by
      simp only [hostReset]
      rw [h]
    refine ⟨hres, ?_, rfl, rfl, rfl, rfl, rfl, rfl, rfl, rfl⟩
    rw [hres]
    exact gamesGet_gamesSet games (normalizeCode gameId)
      (newGameState (normalizeCode gameId) cur.hostSocketId)

/-- C8 witness: resetting the closed demo session registered under the
untrimmed lower-case code replaces it with the fresh session; a reset
of an unknown code fails; a non-reset operation keeps the closed demo
session closed. -/
theorem reset_rules_witness :
    hostReset [(normalizeCode " abcd ", closedDemoGame)] " abcd " =
      (ResetAck.ok,
       gamesSet [(normalizeCode " abcd ", closedDemoGame)] (normalizeCode " abcd ")
         (newGameState (normalizeCode " abcd ") 0)) ∧
    hostReset [] "ZZZZ" = (ResetAck.notFound, []) ∧
    (applyGOp GOp.hStart closedDemoGame).closed = true := by
  refine ⟨?_, reset_rules.1 [] "ZZZZ" rfl,
    reset_rules.2.2 GOp.hStart closedDemoGame (by decide) rfl⟩
  have hget : gamesGet [(normalizeCode " abcd ", closedDemoGame)] (normalizeCode " abcd ") =
      some closedDemoGame := by
    unfold gamesGet
    rw [List.find?_cons_of_pos _ (by simp)]
    rfl
  exact (reset_rules.2.1 [(normalizeCode " abcd ", closedDemoGame)] " abcd "
    closedDemoGame hget).1

end Bingo

namespace Bingo

theorem nodup_set_of_not_mem {α : Type} (l : List α) (i : Nat) (a : α)
    (h : l.Nodup) (ha : a ∉ l) : (l.set i a).Nodup := by
  induction l generalizing i with
  | nil => simp
  | cons b l ih =>
    rcases List.nodup_cons.1 h with ⟨hb, hl⟩
    cases i with
    | zero =>
      rw [List.set_cons_zero]
      exact List.nodup_cons.2 ⟨fun hm => ha (List.mem_cons_of_mem _ hm), hl⟩
    | succ j =>
      rw [List.set_cons_succ]
      refine List.nodup_cons.2 ⟨fun hm => ?_, ih j hl (fun hm => ha (List.mem_cons_of_mem _ hm))⟩
      rcases List.mem_or_eq_of_mem_set hm with hm2 | rfl
      · exact hb hm2
      · exact ha (List.mem_cons_self _ _)

theorem samplePoolStep_inv (mn mx k : Nat) (hmn : mn ≤ mx) (pool : List Nat)
    (h1 : pool.Nodup) (h2 : ∀ v ∈ pool, mn ≤ v ∧ v ≤ mx) (h3 : pool.length ≤ 5) :
    (samplePoolStep mn mx pool k).Nodup ∧
    (∀ v ∈ samplePoolStep mn mx pool k, mn ≤ v ∧ v ≤ mx) ∧
    (samplePoolStep mn mx pool k).length ≤ 5 := by
  simp only [samplePoolStep]
  by_cases h5 : 5 ≤ pool.length
  · rw [if_pos h5]
    exact ⟨h1, h2, h3⟩
  · rw [if_neg h5]
    by_cases hv : k % (mx - mn + 1) + mn ∈ pool
    · rw [if_pos hv]
      exact ⟨h1, h2, h3⟩
    · rw [if_neg hv]
      have hbnd : mn ≤ k % (mx - mn + 1) + mn ∧ k % (mx - mn + 1) + mn ≤ mx := by
        have hlt : k % (mx - mn + 1) < mx - mn + 1 := Nat.mod_lt _ (Nat.succ_pos _)
        omega
      refine ⟨?_, ?_, ?_⟩
      · rw [List.nodup_append]
        refine ⟨h1, List.nodup_singleton _, fun a ha ha2 => ?_⟩
        rw [List.mem_singleton] at ha2
        subst ha2
        exact hv ha
      · intro v hvm
        rcases List.mem_append.1 hvm with hvm | hvm
        · exact h2 v hvm
        · rw [List.mem_singleton] at hvm
          subst hvm
          exact hbnd
      · rw [List.length_append]
        simp only [List.length_singleton]
        omega

theorem samplePool_spec (ks : List Nat) (mn mx : Nat) (hmn : mn ≤ mx) :
    (samplePool ks mn mx).Nodup ∧ (∀ v ∈ samplePool ks mn mx, mn ≤ v ∧ v ≤ mx) ∧
      (samplePool ks mn mx).length ≤ 5 := by
  have main : ∀ acc : List Nat, acc.Nodup → (∀ v ∈ acc, mn ≤ v ∧ v ≤ mx) →
      acc.length ≤ 5 →
      (ks.foldl (samplePoolStep mn mx) acc).Nodup ∧
      (∀ v ∈ ks.foldl (samplePoolStep mn mx) acc, mn ≤ v ∧ v ≤ mx) ∧
      (ks.foldl (samplePoolStep mn mx) acc).length ≤ 5 := by
    induction ks with
    | nil =>
      intro acc hn hm hl
      exact ⟨hn, hm, hl⟩
    | cons k ks ih =>
      intro acc hn hm hl
      rw [List.foldl_cons]
      obtain ⟨g1, g2, g3⟩ := samplePoolStep_inv mn mx k hmn acc hn hm hl
      exact ih _ g1 g2 g3
  exact main [] List.nodup_nil (by simp) (by simp)

theorem map_num_getD (l : List Nat) (r : Nat) (hr : r < l.length) :
    (l.map Cell.num).getD r (Cell.num 0) = Cell.num (l.getD r 0) := by
  have hr2 : r < (l.map Cell.num).length := by simpa using hr
  rw [getD_eq_getElem_of_lt _ _ hr2, getD_eq_getElem_of_lt _ _ hr]
  simp

theorem samplePool_col (ks : List Nat) (mn mx : Nat) (hmn : mn ≤ mx)
    (hlen : (samplePool ks mn mx).length = 5) (r : Nat) (hr : r < 5) :
    ∃ v, ((samplePool ks mn mx).map Cell.num).getD r (Cell.num 0) = Cell.num v ∧
      mn ≤ v ∧ v ≤ mx := by
  have hrlt : r < (samplePool ks mn mx).length := by rw [hlen]; exact hr
  have hb := (samplePool_spec ks mn mx hmn).2.1 _ (getD_mem_of_lt _ 0 hrlt)
  exact ⟨(samplePool ks mn mx).getD r 0, map_num_getD _ _ hrlt, hb.1, hb.2⟩

theorem samplePool_col2_entry (ks : List Nat) (hlen : (samplePool ks 31 45).length = 5)
    (r : Nat) (hr : r < 5) (hne : r ≠ 2) :
    ∃ v, (((samplePool ks 31 45).map Cell.num).set 2 Cell.free).getD r (Cell.num 0) =
      Cell.num v ∧ 31 ≤ v ∧ v ≤ 45 := by
  have hmap : r < ((samplePool ks 31 45).map Cell.num).length := by
    rw [List.length_map, hlen]
    exact hr
  have hset : r < (((samplePool ks 31 45).map Cell.num).set 2 Cell.free).length := by
    rw [List.length_set]
    exact hmap
  have heq : (((samplePool ks 31 45).map Cell.num).set 2 Cell.free).getD r (Cell.num 0) =
      ((samplePool ks 31 45).map Cell.num).getD r (Cell.num 0) := by
    rw [getD_eq_getElem_of_lt _ _ hset, getD_eq_getElem_of_lt _ _ hmap]
    rw [List.getElem_set_ne (show (2 : Nat) ≠ r by omega)]
  rw [heq]
  exact samplePool_col ks 31 45 (by omega) hlen r hr

theorem cell_num_injective : Function.Injective Cell.num := by
  intro a b hab
  injection hab

end Bingo

namespace Bingo

/-- C7: once the per-column sampling loop has terminated, the generated
card has 5 columns of 5 entries each; the center entry is the FREE
sentinel; every other entry of column c is a number in that column's
fixed range; the entries of every column are pairwise distinct; and the
marked-grid is all-false except the pre-marked center. -/
theorem createCard_spec (ks : Nat → List Nat)
    (hk0 : (samplePool (ks 0) 1 15).length = 5)
    (hk1 : (samplePool (ks 1) 16 30).length = 5)
    (hk2 : (samplePool (ks 2) 31 45).length = 5)
    (hk3 : (samplePool (ks 3) 46 60).length = 5)
    (hk4 : (samplePool (ks 4) 61 75).length = 5) :
    (createCard ks).numbers.length = 5 ∧
    (∀ c, c < 5 → ((createCard ks).numbers.getD c []).length = 5) ∧
    ((createCard ks).numbers.getD 2 []).getD 2 (Cell.num 0) = Cell.free ∧
    (∀ c, c < 5 → ∀ r, r < 5 → ¬(c = 2 ∧ r = 2) →
      ∃ v, ((createCard ks).numbers.getD c []).getD r (Cell.num 0) = Cell.num v ∧
        (bingoRanges.getD c (0, 0)).1 ≤ v ∧ v ≤ (bingoRanges.getD c (0, 0)).2) ∧
    (∀ c, c < 5 → ((createCard ks).numbers.getD c []).Nodup) ∧
    (∀ r, r < 5 → ∀ c, c < 5 →
      markedAt (createCard ks).marked r c = (decide (r = 2) && decide (c = 2))) := by
  have hnum : (createCard ks).numbers =
      [(samplePool (ks 0) 1 15).map Cell.num,
       (samplePool (ks 1) 16 30).map Cell.num,
       ((samplePool (ks 2) 31 45).map Cell.num).set 2 Cell.free,
       (samplePool (ks 3) 46 60).map Cell.num,
       (samplePool (ks 4) 61 75).map Cell.num] := rfl
  have hmarked : (createCard ks).marked = centerGrid := rfl
  refine ⟨by rw [hnum]; rfl, ?_, ?_, ?_, ?_, ?_⟩
  · intro c hc
    interval_cases c <;>
      simp [hnum, List.length_set, List.length_map, hk0, hk1, hk2, hk3, hk4]
  · rw [hnum]
    show (((samplePool (ks 2) 31 45).map Cell.num).set 2 Cell.free).getD 2 (Cell.num 0) =
      Cell.free
    have hset : 2 < (((samplePool (ks 2) 31 45).map Cell.num).set 2 Cell.free).length := by
      rw [List.length_set, List.length_map, hk2]
      omega
    rw [getD_eq_getElem_of_lt _ _ hset]
    exact List.getElem_set_self hset
  · intro c hc r hr hne
    rw [hnum]
    interval_cases c
    · exact samplePool_col (ks 0) 1 15 (by omega) hk0 r hr
    · exact samplePool_col (ks 1) 16 30 (by omega) hk1 r hr
    · exact samplePool_col2_entry (ks 2) hk2 r hr (fun h => hne ⟨rfl, h⟩)
    · exact samplePool_col (ks 3) 46 60 (by omega) hk3 r hr
    · exact samplePool_col (ks 4) 61 75 (by omega) hk4 r hr
  · intro c hc
    rw [hnum]
    interval_cases c
    · exact ((samplePool_spec (ks 0) 1 15 (by omega)).1).map cell_num_injective
    · exact ((samplePool_spec (ks 1) 16 30 (by omega)).1).map cell_num_injective
    · exact nodup_set_of_not_mem _ 2 Cell.free
        (((samplePool_spec (ks 2) 31 45 (by omega)).1).map cell_num_injective)
        (by simp)
    · exact ((samplePool_spec (ks 3) 46 60 (by omega)).1).map cell_num_injective
    · exact ((samplePool_spec (ks 4) 61 75 (by omega)).1).map cell_num_injective
  · intro r hr c hc
    rw [hmarked]
    interval_cases r <;> interval_cases c <;> rfl

/-- C7 witness: the card generated from the demo random stream. -/
theorem createCard_spec_witness :
    (createCard demoStream).numbers.length = 5 ∧
    ((createCard demoStream).numbers.getD 2 []).getD 2 (Cell.num 0) = Cell.free ∧
    (∀ c, c < 5 → ((createCard demoStream).numbers.getD c []).Nodup) ∧
    markedAt (createCard demoStream).marked 2 2 = true := by
  have h := createCard_spec demoStream (by decide) (by decide) (by decide) (by decide)
    (by decide)
  refine ⟨h.1, h.2.2.1, h.2.2.2.2.1, ?_⟩
  have hm := h.2.2.2.2.2 2 (by omega) 2 (by omega)
  simpa using hm

end Bingo
